import Mathlib

/-!
Shallow embedding of the RAG request handler in `src/main.go`
(package `main` of kill3rstabs/langchainGORAG).

The pure core is translated directly:
* `constructPrompt` (main.go lines 226-250) with `sprintf1` modelling
  `fmt.Sprintf` applied to a single `string` argument and `joinSep`
  modelling `strings.Join`;
* the conversation-window updates and eviction check of `RAG`
  (main.go lines 118-141), with the external collaborators (the qdrant
  similarity search and the ollama LLM call) passed in as explicit
  result values, since in Go they are network calls whose results the
  handler merely pattern-matches on (`err != nil`);
* `readDocumentsFromCSV` (main.go lines 144-174), with the file
  open + `csv.ReadAll` step passed in as an `Except` value and
  `uuid.New().String()` passed in as a generator indexed by the number
  of documents built so far.

The lock/unlock structure of `RAG` is modelled separately as an event
trace (`ragLockTrace`) recording, in source order, each acquisition and
release of `chatContext.mu` and each access to `chatContext.Context`.
-/

/- ### `fmt.Sprintf` with one string argument -/

/-- Finds the first `%s` verb in a format string (as a character list),
returning the text before it and the text after it.  Mirrors the scan
`fmt.Sprintf` performs for a format whose only verb is `%s`. -/
def breakPercentS : List Char → Option (List Char × List Char)
  | [] => none
  | '%' :: 's' :: rest => some ([], rest)
  | c :: rest =>
    match breakPercentS rest with
    | none => none
    | some (p, suf) => some (c :: p, suf)

/-- Rewrites every remaining `%s` verb to Go's missing-argument
annotation `%!s(MISSING)`, as `fmt.Sprintf` does for verbs beyond the
supplied arguments. -/
def substMissingChars : List Char → List Char
  | [] => []
  | '%' :: 's' :: rest =>
    '%' :: '!' :: 's' :: '(' :: 'M' :: 'I' :: 'S' :: 'S' :: 'I' :: 'N' :: 'G' :: ')'
      :: substMissingChars rest
  | c :: rest => c :: substMissingChars rest

/-- Models `fmt.Sprintf(format, arg)` for one `string` argument and a
format whose only verb is `%s`: the first `%s` is replaced by `arg`,
later `%s` verbs become `%!s(MISSING)`, and when the format contains no
verb at all Go appends the extra-argument annotation
`%!(EXTRA string=arg)` to the output. -/
def sprintf1 (format arg : String) : String :=
  match breakPercentS format.data with
  | none => format ++ "%!(EXTRA string=" ++ arg ++ ")"
  | some (pre, suf) => String.mk pre ++ arg ++ String.mk (substMissingChars suf)

/-- Models `strings.Join(elems, sep)`. -/
def joinSep (sep : String) : List String → String
  | [] => ""
  | [x] => x
  | x :: y :: rest => x ++ sep ++ joinSep sep (y :: rest)

/- ### Data model: documents and prompt templates -/

/-- `schema.Document` as used by main.go: a page content plus key-value
metadata (built up by Go map assignments with pairwise distinct keys,
represented here as an association list in insertion order). -/
structure Document where
  PageContent : String
  Metadata : List (String × String)
deriving DecidableEq

/-- `PromptTemplate` (main.go lines 32-37). -/
structure PromptTemplate where
  SystemMessage : String
  ContextFormat : String
  RelevantInfoFormat : String
  UserQueryFormat : String
deriving DecidableEq

/-- `defaultPromptTemplate` (main.go lines 39-44).  The
`UserQueryFormat` field is commented out in the Go composite literal,
so it is the zero value `""`. -/
def defaultPromptTemplate : PromptTemplate :=
  { SystemMessage := "You are a helpful AI assistant. Provide concise and accurate responses based on the given context and relevant information.Only answer from the given data donot answer from anywhere else or your prior memory. If you are unable to find the answer in the data then simply answer \x27I don\x27t know.\x27 How can I assist you further?"
    ContextFormat := "Previous conversation:\n%s\n"
    RelevantInfoFormat := "Relevant information:\n%s\n"
    UserQueryFormat := "" }

/-- `constructPrompt` (main.go lines 226-250), written exactly as the
Go `strings.Builder` sequence: system message, then `"\n\n"`, then the
context block when `len(context) > 0`, then the relevant-info block
when `len(relevantDocs) > 0` (built by the inner builder loop over the
documents), then the user-query format applied to `userQuery`. -/
def constructPrompt (context : List String) (relevantDocs : List Document)
    (userQuery : String) (template : PromptTemplate) : String :=
  let sb := ""
  let sb := sb ++ template.SystemMessage
  let sb := sb ++ "\n\n"
  let sb :=
    if context.length > 0 then
      sb ++ sprintf1 template.ContextFormat (joinSep "\n" context) ++ "\n"
    else sb
  let sb :=
    if relevantDocs.length > 0 then
      let relevantInfo :=
        List.foldl (fun acc doc => acc ++ doc.PageContent ++ "\n") "" relevantDocs
      sb ++ sprintf1 template.RelevantInfoFormat relevantInfo ++ "\n"
    else sb
  sb ++ sprintf1 template.UserQueryFormat userQuery

/-- The passage texts each followed by a newline, in order: the value
the inner builder loop of `constructPrompt` (main.go lines 238-242)
accumulates. -/
def concatPages : List Document → String
  | [] => ""
  | d :: rest => d.PageContent ++ "\n" ++ concatPages rest

/- ### Conversation window and the request pipeline -/

/-- `maxContextLength` (main.go line 26). -/
def maxContextLength : Nat := 5

/-- The eviction check of `RAG` (main.go lines 136-138): a single `if`
that slices off the two oldest entries when the window exceeds
`maxContextLength*2` entries. -/
def evictIfOverCapacity (w : List String) : List String :=
  if w.length > maxContextLength * 2 then w.drop 2 else w

/-- How `RAG` uses the result of `store.SimilaritySearch` (main.go
lines 122-125): on error it only logs, leaving `relevantDocs` at the
zero value `nil`, i.e. no passages. -/
def docsOfSearch (res : Except String (List Document)) : List Document :=
  match res with
  | .ok ds => ds
  | .error _ => []

/-- Observable outcome of one `RAG` call: the conversation window
afterwards, the prompt handed to `ollamaLLM.Call`, and the string
returned to the caller. -/
structure RAGResult where
  window : List String
  prompt : String
  response : String
deriving DecidableEq

/-- The request-handling core of `RAG` (main.go lines 118-141), for a
given conversation window on entry.  The two external collaborators
are passed explicitly: `search` is the result of
`store.SimilaritySearch(ctx, msg, 3)` and `callLLM` the behaviour of
`ollamaLLM.Call`.  On a `callLLM` error the handler only logs, so
`response` keeps Go's zero value `""` (main.go lines 129-132), is then
appended as the assistant turn, and is returned to the caller.  The
setup code of lines 73-116 aborts the whole process via `log.Fatal` on
failure and does not touch the window, so it is not part of this
model. -/
def RAG (window : List String) (msg : String)
    (search : Except String (List Document))
    (callLLM : String → Except String String) : RAGResult :=
  let ctx1 := window ++ ["User: " ++ msg]
  let relevantDocs := docsOfSearch search
  let prompt := constructPrompt ctx1 relevantDocs msg defaultPromptTemplate
  let response :=
    match callLLM prompt with
    | .ok r => r
    | .error _ => ""
  let ctx2 := ctx1 ++ ["Assistant: " ++ response]
  { window := evictIfOverCapacity ctx2, prompt := prompt, response := response }

/-- Sequential handling of a list of requests, each given as the
message together with that request's collaborator results, starting
from a given window.  The process starts with the empty window
(main.go lines 51-53). -/
def runRequests :
    List String →
    List (String × Except String (List Document) × (String → Except String String)) →
    List String
  | w, [] => w
  | w, (m, s, f) :: rest => runRequests (RAG w m s f).window rest

/-- The flat entry list of a list of completed (user, assistant)
exchange pairs, tagged the way `RAG` tags them. -/
def pairEntries : List (String × String) → List String
  | [] => []
  | (u, a) :: rest => ("User: " ++ u) :: ("Assistant: " ++ a) :: pairEntries rest

/-- A window made only of complete user+assistant pairs, in order. -/
def IsPairWindow (w : List String) : Prop :=
  ∃ ps : List (String × String), w = pairEntries ps

/- ### Lock discipline of `RAG` as an event trace -/

/-- The four accesses `RAG` makes to the shared window
`chatContext.Context`. -/
inductive WindowAccess
  | appendUser
  | snapshotRead
  | appendAssistant
  | evictCheck
deriving DecidableEq

/-- One step of `RAG` as far as `chatContext.mu` and
`chatContext.Context` are concerned. -/
inductive LockEvent
  | lock
  | unlock
  | access (a : WindowAccess)
deriving DecidableEq

/-- The events of one `RAG` call in source order (main.go lines
118-139): `mu.Lock()` (118), append of the user turn (119),
`mu.Unlock()` (120), the read of `chatContext.Context` passed to
`constructPrompt` (127), `mu.Lock()` (134), append of the assistant
turn (135), the eviction check (136-138), `mu.Unlock()` (139). -/
def ragLockTrace : List LockEvent :=
  [.lock, .access .appendUser, .unlock,
   .access .snapshotRead,
   .lock, .access .appendAssistant, .access .evictCheck, .unlock]

/-- Walks an event trace with the current lock-held state and records,
for each window access, whether the mutex was held when it ran. -/
def accessesWithHeld : List LockEvent → Bool → List (WindowAccess × Bool)
  | [], _ => []
  | .lock :: rest, _ => accessesWithHeld rest true
  | .unlock :: rest, _ => accessesWithHeld rest false
  | .access a :: rest, held => (a, held) :: accessesWithHeld rest held

/- ### `readDocumentsFromCSV` -/

/-- Decimal digit characters of a positive number, most-significant
first.  The first argument is recursion fuel, kept at least the number
itself so the division chain always bottoms out. -/
def natDecimalAux : Nat → Nat → List Char
  | 0, _ => []
  | _, 0 => []
  | fuel + 1, n => natDecimalAux fuel (n / 10) ++ [Nat.digitChar (n % 10)]

/-- Decimal rendering of a natural number, modelling how
`fmt.Sprintf("column_%d", i)` prints the (always nonnegative) loop
index `i`: most-significant digit first, no leading zeros, `"0"` for
zero. -/
def natDecimal (n : Nat) : String :=
  if n = 0 then "0" else String.mk (natDecimalAux n n)

/-- One document built from a CSV record (main.go lines 162-169):
page content is the record's first field, metadata starts with the
fresh `"id"` entry and then gains `"column_i" ↦ record[i]` for each
further field `i = 1 .. len(record)-1`. -/
def docOfRecord (record : List String) (uid : String) : Document :=
  { PageContent := record.headD ""
    Metadata :=
      ("id", uid) ::
        (List.enumFrom 1 (record.drop 1)).map
          (fun p => ("column_" ++ natDecimal p.1, p.2)) }

/-- The record loop of `readDocumentsFromCSV` (main.go lines 157-171):
records with no fields are skipped, every other record yields one
document, in record order.  `uuidGen` models `uuid.New().String()`,
indexed by how many documents were built before the call. -/
def docsOfRecords (uuidGen : Nat → String) :
    List (List String) → Nat → List Document
  | [], _ => []
  | r :: rest, n =>
    if r.length < 1 then docsOfRecords uuidGen rest n
    else docOfRecord r (uuidGen n) :: docsOfRecords uuidGen rest (n + 1)

/-- `readDocumentsFromCSV` (main.go lines 144-174).  `parsed` is the
combined result of `os.Open` and `csv.NewReader(file).ReadAll()`: the
function returns their error unchanged (lines 146-148, 152-155) and
otherwise never fails. -/
def readDocumentsFromCSV (parsed : Except String (List (List String)))
    (uuidGen : Nat → String) : Except String (List Document) :=
  match parsed with
  | .error e => .error e
  | .ok records => .ok (docsOfRecords uuidGen records 0)

/- ### Basic String facts used throughout -/

theorem str_empty_append (s : String) : "" ++ s = s := rfl

theorem str_append_empty (s : String) : s ++ "" = s := by
  cases s with
  | mk l => show String.mk (l ++ []) = String.mk l; rw [List.append_nil]

theorem str_append_assoc (a b c : String) : a ++ b ++ c = a ++ (b ++ c) := by
  cases a with
  | mk l =>
    cases b with
    | mk m =>
      cases c with
      | mk k =>
        show String.mk (l ++ m ++ k) = String.mk (l ++ (m ++ k))
        rw [List.append_assoc]

theorem str_mk_inj {l m : List Char} (h : String.mk l = String.mk m) : l = m := by
  injection h

theorem str_append_left_cancel {a b c : String} (h : a ++ b = a ++ c) : b = c := by
  cases a with
  | mk l =>
    cases b with
    | mk m =>
      cases c with
      | mk k =>
        have : l ++ m = l ++ k := str_mk_inj h
        exact congrArg String.mk (List.append_cancel_left this)

theorem str_length_append (a b : String) : (a ++ b).length = a.length + b.length := by
  cases a with
  | mk l =>
    cases b with
    | mk m =>
      show (String.mk (l ++ m)).length = _
      simp [String.length]

/- ### The default template's three format strings, evaluated -/

theorem sprintf1_contextFormat (s : String) :
    sprintf1 "Previous conversation:\n%s\n" s = "Previous conversation:\n" ++ s ++ "\n" := rfl

theorem sprintf1_relevantInfoFormat (s : String) :
    sprintf1 "Relevant information:\n%s\n" s = "Relevant information:\n" ++ s ++ "\n" := rfl

theorem sprintf1_noVerb (s : String) :
    sprintf1 "" s = "%!(EXTRA string=" ++ s ++ ")" := rfl

/- ### Closed form of `constructPrompt` -/

theorem foldl_pages (docs : List Document) (acc : String) :
    List.foldl (fun sb doc => sb ++ doc.PageContent ++ "\n") acc docs
      = acc ++ concatPages docs := by
  induction docs generalizing acc with
  | nil => simp [concatPages, str_append_empty]
  | cons d rest ih =>
    rw [List.foldl_cons, ih, concatPages]
    simp [str_append_assoc]

theorem constructPrompt_closed (ctx : List String) (docs : List Document)
    (q : String) (t : PromptTemplate) :
    constructPrompt ctx docs q t =
      t.SystemMessage ++ "\n\n"
        ++ (if ctx.length > 0 then
              sprintf1 t.ContextFormat (joinSep "\n" ctx) ++ "\n" else "")
        ++ (if docs.length > 0 then
              sprintf1 t.RelevantInfoFormat (concatPages docs) ++ "\n" else "")
        ++ sprintf1 t.UserQueryFormat q := by
  simp only [constructPrompt, foldl_pages, str_empty_append]
  by_cases hc : ctx.length > 0 <;> by_cases hd : docs.length > 0 <;>
    simp [hc, hd, str_append_assoc, str_append_empty, str_empty_append]

/- ### List/window helper lemmas -/

theorem joinSep_concat (w : List String) (x : String) :
    ∃ p, joinSep "\n" (w ++ [x]) = p ++ x := by
  induction w with
  | nil => exact ⟨"", rfl⟩
  | cons a w' ih =>
    cases w' with
    | nil => exact ⟨a ++ "\n", rfl⟩
    | cons b w'' =>
      obtain ⟨p', hp⟩ := ih
      refine ⟨a ++ "\n" ++ p', ?_⟩
      show a ++ "\n" ++ joinSep "\n" ((b :: w'') ++ [x]) = a ++ "\n" ++ p' ++ x
      rw [hp, str_append_assoc (a ++ "\n") p' x]

theorem getLast_concat (w : List String) (x : String) :
    (w ++ [x]).getLast? = some x := by
  induction w with
  | nil => rfl
  | cons a w' ih =>
    cases h : w' ++ [x] with
    | nil => exact absurd h (by simp)
    | cons b l =>
      show (a :: (w' ++ [x])).getLast? = some x
      rw [h, List.getLast?_cons_cons, ← h, ih]

theorem pairEntries_length (ps : List (String × String)) :
    (pairEntries ps).length = 2 * ps.length := by
  induction ps with
  | nil => rfl
  | cons p rest ih =>
    cases p with
    | mk u a => simp [pairEntries, ih]; ring

theorem pairEntries_append (ps : List (String × String)) (u a : String) :
    pairEntries (ps ++ [(u, a)])
      = pairEntries ps ++ [("User: " ++ u), ("Assistant: " ++ a)] := by
  induction ps with
  | nil => rfl
  | cons p rest ih =>
    cases p with
    | mk x y => simp [pairEntries, ih]

theorem evict_pair_step (w : List String) (u a : String)
    (hp : IsPairWindow w) (hl : w.length ≤ maxContextLength * 2) :
    IsPairWindow (evictIfOverCapacity (w ++ ["User: " ++ u, "Assistant: " ++ a]))
      ∧ (evictIfOverCapacity (w ++ ["User: " ++ u, "Assistant: " ++ a])).length
          ≤ maxContextLength * 2 := by
  obtain ⟨ps, rfl⟩ := hp
  have hps : pairEntries ps ++ ["User: " ++ u, "Assistant: " ++ a]
      = pairEntries (ps ++ [(u, a)]) := (pairEntries_append ps u a).symm
  rw [hps]
  unfold evictIfOverCapacity
  by_cases hlen : (pairEntries (ps ++ [(u, a)])).length > maxContextLength * 2
  · simp only [hlen, if_true]
    cases hcase : ps ++ [(u, a)] with
    | nil => exact absurd hcase (by simp)
    | cons p tail =>
      cases p with
      | mk x y =>
        refine ⟨⟨tail, rfl⟩, ?_⟩
        have hlen2 : ps.length + 1 = tail.length + 1 := by
          have h := congrArg List.length hcase
          simpa using h
        have h2 := pairEntries_length tail
        have h3 := pairEntries_length ps
        show (pairEntries tail).length ≤ maxContextLength * 2
        simp only [maxContextLength] at *
        omega
  · simp only [hlen, if_false]
    exact ⟨⟨ps ++ [(u, a)], rfl⟩, by omega⟩

/- ### Decimal rendering: agreement with `Nat.digits` and injectivity -/

theorem natDecimalAux_eq_digits (fuel : Nat) :
    ∀ n : Nat, n ≤ fuel →
      natDecimalAux fuel n = ((Nat.digits 10 n).reverse).map Nat.digitChar := by
  induction fuel with
  | zero =>
    intro n h
    have hn : n = 0 := Nat.le_zero.mp h
    subst hn
    simp [natDecimalAux]
  | succ f ih =>
    intro n h
    cases n with
    | zero => simp [natDecimalAux]
    | succ m =>
      show natDecimalAux f ((m + 1) / 10) ++ [Nat.digitChar ((m + 1) % 10)] = _
      rw [ih ((m + 1) / 10) (by omega),
        Nat.digits_def' (by norm_num : (1:Nat) < 10) (Nat.succ_pos m)]
      simp

theorem digitChar_inj_below10 :
    ∀ a < 10, ∀ b < 10, Nat.digitChar a = Nat.digitChar b → a = b := by decide

theorem map_digitChar_cancel :
    ∀ l1 l2 : List Nat, (∀ d ∈ l1, d < 10) → (∀ d ∈ l2, d < 10) →
      l1.map Nat.digitChar = l2.map Nat.digitChar → l1 = l2 := by
  intro l1
  induction l1 with
  | nil =>
    intro l2 _ _ h
    cases l2 with
    | nil => rfl
    | cons b t2 => simp at h
  | cons a t ih =>
    intro l2 h1 h2 h
    cases l2 with
    | nil => simp at h
    | cons b t2 =>
      simp only [List.map_cons, List.cons.injEq] at h
      have hab : a = b :=
        digitChar_inj_below10 a (h1 a (by simp)) b (h2 b (by simp)) h.1
      subst hab
      rw [ih t2 (fun d hd => h1 d (by simp [hd])) (fun d hd => h2 d (by simp [hd])) h.2]

theorem natDecimal_zero_unique {n : Nat} (hn : n ≠ 0) : natDecimal n ≠ "0" := by
  intro h
  rw [natDecimal, if_neg hn, natDecimalAux_eq_digits n n le_rfl] at h
  have hd : ((Nat.digits 10 n).reverse).map Nat.digitChar = ['0'] := str_mk_inj h
  cases hrev : (Nat.digits 10 n).reverse with
  | nil =>
    rw [hrev] at hd
    simp at hd
  | cons e t2 =>
    rw [hrev] at hd
    simp only [List.map_cons, List.cons.injEq] at hd
    have ht2 : t2 = [] := by
      cases t2 with
      | nil => rfl
      | cons _ _ => simp at hd
    subst ht2
    have hmem : e ∈ Nat.digits 10 n :=
      List.mem_reverse.mp (by rw [hrev]; simp)
    have he10 : e < 10 := Nat.digits_lt_base (by norm_num) hmem
    have he0 : e = 0 := digitChar_inj_below10 e he10 0 (by norm_num) hd.1
    subst he0
    have hlist : Nat.digits 10 n = [0] := by
      have h2 := congrArg List.reverse hrev
      simpa using h2
    have hn0 : n = 0 := by
      have h2 := congrArg (Nat.ofDigits 10) hlist
      rw [Nat.ofDigits_digits] at h2
      simpa [Nat.ofDigits] using h2
    exact hn hn0

theorem natDecimal_inj {m n : Nat} (h : natDecimal m = natDecimal n) : m = n := by
  by_cases hm : m = 0 <;> by_cases hn : n = 0
  · omega
  · exfalso
    subst hm
    exact natDecimal_zero_unique hn (by rw [← h]; rfl)
  · exfalso
    subst hn
    exact natDecimal_zero_unique hm (by rw [h]; rfl)
  · rw [natDecimal, if_neg hm, natDecimalAux_eq_digits m m le_rfl] at h
    rw [natDecimal, if_neg hn, natDecimalAux_eq_digits n n le_rfl] at h
    have hd := str_mk_inj h
    have hdig := map_digitChar_cancel _ _
      (fun d hmem => Nat.digits_lt_base (by norm_num) (List.mem_reverse.mp hmem))
      (fun d hmem => Nat.digits_lt_base (by norm_num) (List.mem_reverse.mp hmem)) hd
    have heq : Nat.digits 10 m = Nat.digits 10 n := by
      have h2 := congrArg List.reverse hdig
      simpa using h2
    have h3 := congrArg (Nat.ofDigits 10) heq
    rwa [Nat.ofDigits_digits, Nat.ofDigits_digits] at h3

/- ### Metadata lookup in documents built from CSV records -/

theorem columnKey_ne_id (i : Nat) : ("column_" ++ natDecimal i) ≠ "id" := by
  intro h
  have hlen := congrArg String.length h
  rw [str_length_append] at hlen
  have h7 : ("column_" : String).length = 7 := rfl
  have h2 : ("id" : String).length = 2 := rfl
  omega

theorem columnKey_inj {i j : Nat}
    (h : ("column_" ++ natDecimal i) = ("column_" ++ natDecimal j)) : i = j :=
  natDecimal_inj (str_append_left_cancel h)

theorem lookup_enumFrom_columns (l : List String) :
    ∀ start i : Nat, start ≤ i → i - start < l.length →
      List.lookup ("column_" ++ natDecimal i)
          ((List.enumFrom start l).map (fun p => ("column_" ++ natDecimal p.1, p.2)))
        = some (l.getD (i - start) "") := by
  induction l with
  | nil =>
    intro start i _ h2
    simp at h2
  | cons x t ih =>
    intro start i h1 h2
    by_cases heq : i = start
    · subst heq
      simp [List.enumFrom, List.lookup, Nat.sub_self]
    · have hlt : start < i := lt_of_le_of_ne h1 (Ne.symm heq)
      have hbeq : (("column_" ++ natDecimal i) == ("column_" ++ natDecimal start)) = false :=
        beq_eq_false_iff_ne.mpr (fun hc => heq (columnKey_inj hc))
      simp only [List.enumFrom, List.map_cons, List.lookup, hbeq]
      rw [ih (start + 1) i (by omega) (by simp at h2 ⊢; omega)]
      have hidx : i - start = (i - (start + 1)) + 1 := by omega
      rw [hidx, List.getD_cons_succ]

theorem docOfRecord_lookup (r : List String) (uid : String) (i : Nat)
    (h1 : 1 ≤ i) (h2 : i < r.length) :
    List.lookup ("column_" ++ natDecimal i) (docOfRecord r uid).Metadata
      = some (r.getD i "") := by
  have hbeq : (("column_" ++ natDecimal i) == "id") = false :=
    beq_eq_false_iff_ne.mpr (columnKey_ne_id i)
  show List.lookup _ (("id", uid) :: _) = _
  simp only [List.lookup, hbeq]
  rw [lookup_enumFrom_columns (r.drop 1) 1 i h1 (by simp; omega)]
  congr 1
  rw [List.getD_eq_getElem?_getD, List.getD_eq_getElem?_getD, List.getElem?_drop]
  congr 2
  omega

theorem docsOfRecords_eq (g : Nat → String) :
    ∀ (records : List (List String)) (n : Nat),
      docsOfRecords g records n
        = (List.enumFrom n (records.filter (fun r => 1 ≤ r.length))).map
            (fun p => docOfRecord p.2 (g p.1)) := by
  intro records
  induction records with
  | nil => intro n; rfl
  | cons r rest ih =>
    intro n
    by_cases h : r.length < 1
    · have hf : (decide (1 ≤ r.length)) = false := by
        rw [decide_eq_false_iff_not]
        omega
      simp [docsOfRecords, h, List.filter_cons, hf, ih]
    · have hf : (decide (1 ≤ r.length)) = true := by
        rw [decide_eq_true_eq]
        omega
      simp [docsOfRecords, h, List.filter_cons, hf, List.enumFrom, ih]

/- ### Stepping the window through one request -/

theorem RAG_window_eq (w : List String) (m : String)
    (s : Except String (List Document)) (f : String → Except String String) :
    (RAG w m s f).window
      = evictIfOverCapacity
          (w ++ ["User: " ++ m, "Assistant: " ++ (RAG w m s f).response]) := by
  simp [RAG, List.append_assoc]

theorem runRequests_invariant
    (reqs : List (String × Except String (List Document) × (String → Except String String))) :
    ∀ w : List String, IsPairWindow w → w.length ≤ maxContextLength * 2 →
      IsPairWindow (runRequests w reqs)
        ∧ (runRequests w reqs).length ≤ maxContextLength * 2 := by
  induction reqs with
  | nil =>
    intro w hp hl
    exact ⟨hp, hl⟩
  | cons req rest ih =>
    obtain ⟨m, s, f⟩ := req
    intro w hp hl
    have hstep := evict_pair_step w m ((RAG w m s f).response) hp hl
    have h1 : IsPairWindow (RAG w m s f).window := by
      rw [RAG_window_eq]
      exact hstep.1
    have h2 : (RAG w m s f).window.length ≤ maxContextLength * 2 := by
      rw [RAG_window_eq]
      exact hstep.2
    exact ih (RAG w m s f).window h1 h2

/- ### Claim theorems -/

/-- Claim C1: for every sequence of completed request handlings executed
sequentially (each consisting of one user-turn append, one assistant-turn
append, and the eviction check), after each completed request the
conversation window has length at most `2*maxContextLength` (10 entries)
and even length, holding only complete user+assistant pairs.  Since the
request list is universally quantified, this covers the window after
every prefix of any longer run. -/
theorem rag_window_bound_and_pairs
    (reqs : List (String × Except String (List Document) × (String → Except String String))) :
    IsPairWindow (runRequests [] reqs)
      ∧ (runRequests [] reqs).length ≤ maxContextLength * 2
      ∧ (runRequests [] reqs).length % 2 = 0 := by
  have h := runRequests_invariant reqs [] ⟨[], rfl⟩ (by simp [maxContextLength])
  refine ⟨h.1, h.2, ?_⟩
  obtain ⟨ps, hps⟩ := h.1
  rw [hps, pairEntries_length]
  omega

/-- Claim C2, counterexample: the eviction check of main.go lines 136-138
is a single `if`, not a loop, so a window over capacity by two pairs
(14 entries) is still over capacity (12 entries > 10) after the eviction
runs, contradicting the claim that eviction leaves the window at no more
than `2*maxContextLength` entries even when over capacity by more than
one pair. -/
theorem evict_single_removal_insufficient :
    ¬ ((evictIfOverCapacity (List.replicate 14 "x")).length ≤ maxContextLength * 2) := by
  decide

/-- Claim C2, amended: the eviction check removes the oldest two entries
exactly once when the window exceeds `2*maxContextLength` entries; it
restores the bound only for windows over capacity by at most one pair
(which is the only situation arising in this program, where the check
runs after every assistant append). -/
theorem evict_removes_one_pair (w : List String)
    (h : w.length ≤ maxContextLength * 2 + 2) :
    (evictIfOverCapacity w).length ≤ maxContextLength * 2
      ∧ (maxContextLength * 2 < w.length → evictIfOverCapacity w = w.drop 2)
      ∧ (w.length ≤ maxContextLength * 2 → evictIfOverCapacity w = w) := by
  by_cases hl : w.length > maxContextLength * 2
  · have he : evictIfOverCapacity w = w.drop 2 := by
      unfold evictIfOverCapacity
      rw [if_pos hl]
    rw [he]
    refine ⟨?_, fun _ => rfl, fun hc => absurd hc (by omega)⟩
    rw [List.length_drop]
    omega
  · have he : evictIfOverCapacity w = w := by
      unfold evictIfOverCapacity
      rw [if_neg hl]
    rw [he]
    exact ⟨by omega, fun hc => absurd hc hl, fun _ => rfl⟩

/-- Witness for the amended C2 at a window of 12 entries. -/
theorem evict_removes_one_pair_witness :
    (List.replicate 12 "x").length ≤ maxContextLength * 2 + 2
      ∧ (evictIfOverCapacity (List.replicate 12 "x")).length ≤ maxContextLength * 2 :=
  ⟨by decide, (evict_removes_one_pair (List.replicate 12 "x") (by decide)).1⟩

set_option maxRecDepth 4000

/-- Claim C3: for every context snapshot, passage list, user query and
template, `constructPrompt` emits exactly, in order: the system message
(followed by a blank line); then, only if the context is non-empty, the
context entries joined with newline rendered into the context-block
format; then, only if the passage list is non-empty, the passage texts
each followed by a newline rendered into the relevant-info-block
format; then always the user query rendered into the user-query format,
appended last.  With empty context the context block is absent, and
with empty passages the relevant-info block is absent. -/
theorem constructPrompt_emits_blocks_in_order (ctx : List String)
    (docs : List Document) (q : String) (t : PromptTemplate) :
    constructPrompt ctx docs q t =
      t.SystemMessage ++ "\n\n"
        ++ (if ctx = [] then ""
            else sprintf1 t.ContextFormat (joinSep "\n" ctx) ++ "\n")
        ++ (if docs = [] then ""
            else sprintf1 t.RelevantInfoFormat (concatPages docs) ++ "\n")
        ++ sprintf1 t.UserQueryFormat q := by
  rw [constructPrompt_closed]
  cases ctx <;> cases docs <;> simp

/-- Claim C4: `constructPrompt` is deterministic — two calls on
byte-identical context snapshots, passage lists, user queries and
templates return byte-identical strings (it is a pure function of its
four arguments). -/
theorem constructPrompt_deterministic (c1 : List String) (d1 : List Document)
    (q1 : String) (t1 : PromptTemplate) (c2 : List String) (d2 : List Document)
    (q2 : String) (t2 : PromptTemplate)
    (hc : c1 = c2) (hd : d1 = d2) (hq : q1 = q2) (ht : t1 = t2) :
    constructPrompt c1 d1 q1 t1 = constructPrompt c2 d2 q2 t2 := by
  subst hc
  subst hd
  subst hq
  subst ht
  rfl

/-- Witness for C4 at concrete identical inputs. -/
theorem constructPrompt_deterministic_witness :
    constructPrompt ["User: a"] [] "a" defaultPromptTemplate
      = constructPrompt ["User: a"] [] "a" defaultPromptTemplate :=
  constructPrompt_deterministic ["User: a"] [] "a" defaultPromptTemplate
    ["User: a"] [] "a" defaultPromptTemplate rfl rfl rfl rfl

/-- Claim C5, counterexample: the shipped default template's user-query
format is the empty string (the field is commented out in main.go line
43), and the system does not fail fast on it — `constructPrompt` still
returns a prompt, in which Go's `fmt.Sprintf` renders the unconsumed
argument as the annotation `%!(EXTRA string=q)`. -/
theorem userQueryFormat_no_failfast :
    defaultPromptTemplate.UserQueryFormat = ""
      ∧ constructPrompt [] [] "q" defaultPromptTemplate
          = defaultPromptTemplate.SystemMessage ++ "\n\n"
              ++ "%!(EXTRA string=" ++ "q" ++ ")" :=
  ⟨rfl, rfl⟩

/-- Claim C5, amended: with the shipped default template (whose
user-query format contains no insertion point), `constructPrompt` does
not fail fast; it appends `fmt.Sprintf`'s extra-argument annotation
`%!(EXTRA string=<query>)`, so the user query still appears in the
prompt and is not silently dropped. -/
theorem userQuery_extra_annotation (ctx : List String) (docs : List Document)
    (q : String) :
    ∃ p, constructPrompt ctx docs q defaultPromptTemplate
        = p ++ ("%!(EXTRA string=" ++ q ++ ")") := by
  refine ⟨defaultPromptTemplate.SystemMessage ++ "\n\n"
      ++ (if ctx.length > 0 then
            sprintf1 defaultPromptTemplate.ContextFormat (joinSep "\n" ctx) ++ "\n"
          else "")
      ++ (if docs.length > 0 then
            sprintf1 defaultPromptTemplate.RelevantInfoFormat (concatPages docs) ++ "\n"
          else ""), ?_⟩
  rw [constructPrompt_closed]
  rfl

/-- Claim C6: when the retriever's search fails, the pipeline proceeds
with an empty passage set: the whole observable outcome is identical to
a run whose search returned no passages, the assembled prompt is the
prompt built from the same context and query with no passages (hence,
by the block structure, without a relevant-info block), and the
responder is still called with that prompt — the response is exactly
the unwrapping of `callLLM` applied to it. -/
theorem retriever_error_degrades_gracefully (w : List String) (m e : String)
    (f : String → Except String String) :
    RAG w m (.error e) f = RAG w m (.ok []) f
      ∧ (RAG w m (.error e) f).prompt
          = constructPrompt (w ++ ["User: " ++ m]) [] m defaultPromptTemplate
      ∧ (RAG w m (.error e) f).response
          = (match f ((RAG w m (.error e) f).prompt) with
              | .ok r => r
              | .error _ => "") :=
  ⟨rfl, rfl, rfl⟩

/-- Claim C7, counterexample: with a failing responder, the handler
still appends an assistant turn — `"Assistant: "` plus the zero-value
response — to the window, and returns the empty string `""` to the
caller rather than an explicit error indicator. -/
theorem generation_failure_counterexample :
    (RAG [] "hi" (.ok []) (fun _ => .error "down")).window
        = ["User: hi", "Assistant: "]
      ∧ (RAG [] "hi" (.ok []) (fun _ => .error "down")).response = "" :=
  ⟨rfl, rfl⟩

/-- Claim C7, amended: when the responder fails, `RAG` logs and
proceeds with the zero-value response: the string returned to the
caller is `""` (an empty success-shaped response, not an explicit error
indicator), and an assistant turn `"Assistant: "` IS appended to the
window before the eviction check. -/
theorem generation_failure_behavior (w : List String) (m : String)
    (s : Except String (List Document)) (e : String) :
    (RAG w m s (fun _ => .error e)).response = ""
      ∧ (RAG w m s (fun _ => .error e)).window
          = evictIfOverCapacity (w ++ ["User: " ++ m] ++ ["Assistant: "]) :=
  ⟨rfl, rfl⟩

/-- Claim C8: the trace of one `RAG` call shows which accesses to the
shared window run under `chatContext.mu`.  The snapshot read passed to
`constructPrompt` (main.go line 127) runs with the mutex NOT held — the
lock taken at line 118 is released at line 120 — while the two appends
and the eviction check do hold it.  This contradicts the claim that
every access, including the snapshot for prompt assembly, holds the
mutex. -/
theorem ragLockTrace_snapshot_unlocked :
    accessesWithHeld ragLockTrace false
      = [(.appendUser, true), (.snapshotRead, false),
         (.appendAssistant, true), (.evictCheck, true)] := rfl

/-- Claim C9: the context snapshot `RAG` hands to `constructPrompt` is
the window with the current user turn already appended as its last
entry (main.go line 119 runs before line 127), so the current query
also appears inside the prompt's context block. -/
theorem user_turn_visible_in_snapshot (w : List String) (m : String)
    (s : Except String (List Document)) (f : String → Except String String) :
    (RAG w m s f).prompt
        = constructPrompt (w ++ ["User: " ++ m]) (docsOfSearch s) m
            defaultPromptTemplate
      ∧ (w ++ ["User: " ++ m]).getLast? = some ("User: " ++ m)
      ∧ ∃ p q, (RAG w m s f).prompt = p ++ ("User: " ++ m) ++ q := by
  refine ⟨rfl, getLast_concat w _, ?_⟩
  obtain ⟨p0, hp0⟩ := joinSep_concat w ("User: " ++ m)
  have hctx : (w ++ ["User: " ++ m]).length > 0 := by simp
  show ∃ p q,
      constructPrompt (w ++ ["User: " ++ m]) (docsOfSearch s) m
          defaultPromptTemplate
        = p ++ ("User: " ++ m) ++ q
  rw [constructPrompt_closed, if_pos hctx,
    show defaultPromptTemplate.ContextFormat = "Previous conversation:\n%s\n" from rfl,
    sprintf1_contextFormat, hp0]
  refine ⟨defaultPromptTemplate.SystemMessage ++ "\n\n"
      ++ ("Previous conversation:\n" ++ p0),
    "\n" ++ "\n"
      ++ (if (docsOfSearch s).length > 0 then
            sprintf1 defaultPromptTemplate.RelevantInfoFormat
                (concatPages (docsOfSearch s)) ++ "\n"
          else "")
      ++ sprintf1 defaultPromptTemplate.UserQueryFormat m, ?_⟩
  simp only [str_append_assoc]

/-- Claim C10: `readDocumentsFromCSV` propagates exactly the open/parse
error; on success it produces, in record order, one document per record
with at least one field (zero-field records are skipped, and the fresh
uuid is drawn per document built); each document's page content is the
record's first field; and for every further field index `i ≥ 1` the
document's metadata maps `"column_i"` to that field's value. -/
theorem readDocumentsFromCSV_spec :
    (∀ (e : String) (g : Nat → String),
        readDocumentsFromCSV (.error e) g = .error e)
      ∧ (∀ (records : List (List String)) (g : Nat → String),
          readDocumentsFromCSV (.ok records) g
            = .ok ((List.enumFrom 0 (records.filter (fun r => 1 ≤ r.length))).map
                (fun p => docOfRecord p.2 (g p.1))))
      ∧ (∀ (r : List String) (uid : String), 1 ≤ r.length →
          (docOfRecord r uid).PageContent = r.getD 0 "")
      ∧ (∀ (r : List String) (uid : String) (i : Nat), 1 ≤ i → i < r.length →
          List.lookup ("column_" ++ natDecimal i) (docOfRecord r uid).Metadata
            = some (r.getD i "")) := by
  refine ⟨fun e g => rfl, fun records g => ?_, fun r uid h => ?_,
    fun r uid i h1 h2 => docOfRecord_lookup r uid i h1 h2⟩
  · show Except.ok (docsOfRecords g records 0) = _
    rw [docsOfRecords_eq]
  · cases r with
    | nil => simp at h
    | cons x t => rfl

/-- Witness for C10 on a concrete parse result with a skipped zero-field
record and a two-extra-column record. -/
theorem readDocumentsFromCSV_spec_witness :
    readDocumentsFromCSV (.ok [["a", "b", "c"], [], ["d"]]) natDecimal
        = .ok [docOfRecord ["a", "b", "c"] "0", docOfRecord ["d"] "1"]
      ∧ List.lookup "column_2" (docOfRecord ["a", "b", "c"] "u").Metadata
          = some "c" := by
  constructor
  · rw [readDocumentsFromCSV_spec.2.1 [["a", "b", "c"], [], ["d"]] natDecimal]
    rfl
  · have h := readDocumentsFromCSV_spec.2.2.2 ["a", "b", "c"] "u" 2
      (by decide) (by decide)
    exact h
